import Mathlib

/-!
Shallow embedding of the waybar timer/productivity state machine
(`timer-manager.py`, `productivity-manager.py`).

Modelling conventions:
* Clock readings (Python `time.time()`, `datetime.now()`) are integer epoch
  seconds, passed explicitly to each operation.  Naive local `datetime`
  values are identified with epoch seconds under a fixed UTC offset
  (no DST), so `datetime.timestamp()` is the identity and
  `timedelta(days=1)` adds `86400`.
* JSON files are modelled as in-memory records; a file that may be absent
  is an `Option`.
* Python float arithmetic is modelled by exact rationals; `round(x, 1)`
  and `round(x)` use round-half-to-even as in Python.
* Side effects (sound, notifications) are modelled by counters returned
  alongside the new state.
-/

namespace Waybar

/-- The persisted timer state (`self.state` in `timer-manager.py`).
`mode` and `timer_type` are kept as strings, as in the JSON file. -/
structure TimerState where
  mode : String
  start_time : Int
  duration : Int
  paused : Bool
  pause_start : Int
  total_pause_time : Int
  timer_name : String
  timer_type : String
  session_id : Option String
  deriving Repr, DecidableEq

/-- The default state returned by `load_state` when the file is absent or
corrupt; also the state written by `stop_timer`. -/
def idleState : TimerState :=
  { mode := "idle", start_time := 0, duration := 0, paused := false,
    pause_start := 0, total_pause_time := 0, timer_name := "Timer",
    timer_type := "general", session_id := none }

/-- Python truthiness of `session_id` (`if session_id:`): `None` and the
empty string are falsy. -/
def pyTruthy : Option String → Bool
  | none => false
  | some s => s ≠ ""

/-- `TimerManager.get_current_time`: elapsed seconds accounting for pauses. -/
def get_current_time (s : TimerState) (now : Int) : Int :=
  if s.paused then s.pause_start - s.start_time - s.total_pause_time
  else now - s.start_time - s.total_pause_time

/-- `TimerManager.toggle_pause`. -/
def toggle_pause (s : TimerState) (now : Int) : TimerState :=
  if s.mode = "idle" then s
  else if s.paused then
    { s with total_pause_time := s.total_pause_time + (now - s.pause_start),
             paused := false, pause_start := 0 }
  else
    { s with paused := true, pause_start := now }

/-- `TimerManager.start_stopwatch`: note that, unlike `start_timer`, it
does not touch `timer_type` or `session_id`. -/
def start_stopwatch (s : TimerState) (now : Int) (name : String) : TimerState :=
  { s with mode := "stopwatch", start_time := now, duration := 0,
           paused := false, pause_start := 0, total_pause_time := 0,
           timer_name := name }

/-- Round half to even (Python `round` on an exact value). -/
def roundHalfEven (q : ℚ) : ℤ :=
  let f := ⌊q⌋
  if q - f < 1/2 then f
  else if 1/2 < q - f then f + 1
  else if Even f then f else f + 1

/-- Python `round(q, 1)`: one decimal place, ties to even. -/
def pyRound1 (q : ℚ) : ℚ := (roundHalfEven (10 * q) : ℚ) / 10

/-- A focus/break session record as stored in `analytics.json`
(`create_session_record`).  `stype` is the `"type"` JSON key. -/
structure SessionRecord where
  id : String
  name : String
  stype : String
  planned_duration : ℚ
  start_time : Int
  completed : Bool
  interrupted : Bool
  actual_duration : ℚ
  end_time : Option Int
  deriving Repr, DecidableEq

/-- The `analytics.json` store. -/
structure Analytics where
  focus_sessions : List SessionRecord
  break_sessions : List SessionRecord
  deriving Repr, DecidableEq

/-- The points/level portion of `achievements.json` as touched by
`TimerManager.award_productivity_points`. -/
structure Achievements where
  points : Int
  level : Int
  deriving Repr, DecidableEq

/-- The `focus_time` portion of `daily_stats.json`. -/
structure DailyStats where
  focus_time : Int
  deriving Repr, DecidableEq

/-- `TimerManager.create_session_record`: appends a fresh record (with the
externally generated id `fresh`) to the focus or break list.  The
`planned_duration` field is the duration in seconds divided by 60. -/
def create_session_record (an : Analytics) (now : Int) (duration_seconds : Int)
    (name : String) (session_type : String) (fresh : String) : Analytics :=
  let rec0 : SessionRecord :=
    { id := fresh, name := name, stype := session_type,
      planned_duration := (duration_seconds : ℚ) / 60, start_time := now,
      completed := false, interrupted := false, actual_duration := 0,
      end_time := none }
  if session_type = "focus" then
    { an with focus_sessions := an.focus_sessions ++ [rec0] }
  else
    { an with break_sessions := an.break_sessions ++ [rec0] }

/-- `TimerManager.award_productivity_points`: adds `p` points (when the
achievements file exists) and recomputes `level = points // 100 + 1`;
also accumulates rounded elapsed minutes into the daily `focus_time`
when the current timer is a focus timer. -/
def award_productivity_points (ach : Option Achievements) (ds : Option DailyStats)
    (s : TimerState) (now : Int) (p : Int) :
    Option Achievements × Option DailyStats :=
  let ach' := ach.map fun a =>
    let pts := a.points + p
    { points := pts, level := pts / 100 + 1 }
  let ds' := ds.map fun d =>
    if s.timer_type = "focus" then
      { focus_time := d.focus_time + roundHalfEven ((get_current_time s now : ℚ) / 60) }
    else d
  (ach', ds')

/-- Inner loop of `TimerManager.update_session_record` over one session
list: update the first record whose id matches, returning the new list
and whether that record triggers the focus-completion point award. -/
def updateSessionList (sid : String) (completed interrupted : Bool) (now : Int)
    (actual : Option ℚ) : List SessionRecord → List SessionRecord × Bool
  | [] => ([], false)
  | r :: rs =>
    if r.id = sid then
      (({ r with completed := completed, interrupted := interrupted,
                 end_time := some now,
                 actual_duration := actual.getD r.actual_duration } : SessionRecord) :: rs,
       r.stype = "focus" && completed && !interrupted)
    else
      let (rs', b) := updateSessionList sid completed interrupted now actual rs
      (r :: rs', b)

/-- Combined output of `update_session_record` / `stop_timer`:
the mutated stores plus the total points awarded along the way. -/
structure SessOut where
  analytics : Analytics
  achievements : Option Achievements
  daily : Option DailyStats
  awarded : Int
  deriving Repr, DecidableEq

/-- `TimerManager.update_session_record`: marks the matching record in
each of the two session lists; stores `round(elapsed/60, 1)` as
`actual_duration` when the live timer is a focus/break timer; awards 10
points per updated record that is a completed, uninterrupted focus
session. -/
def update_session_record (an : Analytics) (ach : Option Achievements)
    (ds : Option DailyStats) (s : TimerState) (now : Int)
    (session_id : Option String) (completed interrupted : Bool) : SessOut :=
  if pyTruthy session_id then
    let sid := session_id.getD ""
    let actual : Option ℚ :=
      if s.timer_type = "focus" ∨ s.timer_type = "break" then
        some (pyRound1 ((get_current_time s now : ℚ) / 60))
      else none
    let uf := updateSessionList sid completed interrupted now actual an.focus_sessions
    let ub := updateSessionList sid completed interrupted now actual an.break_sessions
    let w1 := if uf.2 then award_productivity_points ach ds s now 10 else (ach, ds)
    let w2 := if ub.2 then award_productivity_points w1.1 w1.2 s now 10 else w1
    { analytics := ⟨uf.1, ub.1⟩, achievements := w2.1, daily := w2.2,
      awarded := (if uf.2 then 10 else 0) + (if ub.2 then 10 else 0) }
  else
    { analytics := an, achievements := ach, daily := ds, awarded := 0 }

/-- Output of `stop_timer`. -/
structure StopOut where
  timer : TimerState
  analytics : Analytics
  achievements : Option Achievements
  daily : Option DailyStats
  awarded : Int
  deriving Repr, DecidableEq

/-- `TimerManager.stop_timer`: no-op when idle; otherwise closes any open
focus/break session record (`completed = ¬interrupted`) and resets the
state to the idle defaults. -/
def stop_timer (s : TimerState) (an : Analytics) (ach : Option Achievements)
    (ds : Option DailyStats) (interrupted : Bool) (now : Int) : StopOut :=
  if s.mode ≠ "idle" then
    let out :=
      if pyTruthy s.session_id ∧ (s.timer_type = "focus" ∨ s.timer_type = "break") then
        update_session_record an ach ds s now s.session_id (!interrupted) interrupted
      else
        { analytics := an, achievements := ach, daily := ds, awarded := 0 }
    { timer := idleState, analytics := out.analytics,
      achievements := out.achievements, daily := out.daily, awarded := out.awarded }
  else
    { timer := s, analytics := an, achievements := ach, daily := ds, awarded := 0 }

/-- `TimerManager.start_timer`: overwrites every field of the state;
opens a session record when the type is focus or break. -/
def start_timer (_prev : TimerState) (an : Analytics) (now : Int)
    (duration_seconds : Int) (name : String) (timer_type : String)
    (fresh : String) : TimerState × Analytics :=
  let sid : Option String :=
    if timer_type = "focus" ∨ timer_type = "break" then some fresh else none
  let an' :=
    if timer_type = "focus" ∨ timer_type = "break" then
      create_session_record an now duration_seconds name timer_type fresh
    else an
  ({ mode := "timer", start_time := now, duration := duration_seconds,
     paused := false, pause_start := 0, total_pause_time := 0,
     timer_name := name, timer_type := timer_type, session_id := sid }, an')

/-- One alarm entry.  The JSON keeps both the naive ISO `time` string and
the epoch `timestamp`; under the fixed-offset clock model both are epoch
seconds (in-sync entries have `timestamp = time`). -/
structure AlarmEntry where
  time : Int
  name : String
  enabled : Bool
  timestamp : Int
  deriving Repr, DecidableEq

/-- The `alarm-state.json` store. -/
structure AlarmState where
  alarms : List AlarmEntry
  next_alarm : Option AlarmEntry
  alarm_name : String
  deriving Repr, DecidableEq

/-- Sort key used by `list.sort(key=lambda x: x["timestamp"])`. -/
def alarmLE (x y : AlarmEntry) : Bool := x.timestamp ≤ y.timestamp

/-- `TimerManager.update_next_alarm`: earliest enabled entry with
`timestamp > now` (keeping the first among equals, as the strict `<`
comparison in the loop does). -/
def update_next_alarm (a : AlarmState) (now : Int) : AlarmState :=
  let next := a.alarms.foldl (fun acc al =>
    if al.enabled ∧ now < al.timestamp then
      match acc with
      | none => some al
      | some b => if al.timestamp < b.timestamp then some al else acc
    else acc) none
  { a with next_alarm := next }

/-- Whether `check_alarms` fires this entry at clock `now`. -/
def alarmDue (now : Int) (al : AlarmEntry) : Bool :=
  al.enabled && al.timestamp ≤ now

/-- The in-place reschedule performed on each triggered alarm: one day is
added to the stored naive `time`, and the epoch `timestamp` is recomputed
from that advanced `time`. -/
def fireAdvance (now : Int) (al : AlarmEntry) : AlarmEntry :=
  if alarmDue now al then
    { al with time := al.time + 86400, timestamp := al.time + 86400 }
  else al

/-- `TimerManager.check_alarms`: fires every enabled alarm whose
`timestamp` has passed, advances each by one day from its stored `time`,
then (only when something fired) re-sorts by `timestamp` and recomputes
`next_alarm`.  Returns the number of alarms fired. -/
def check_alarms (a : AlarmState) (now : Int) : AlarmState × Nat :=
  let fired := (a.alarms.filter (alarmDue now)).length
  if fired = 0 then (a, 0)
  else
    let alarms' := (a.alarms.map (fireAdvance now)).mergeSort alarmLE
    (update_next_alarm { a with alarms := alarms' } now, fired)

/-- Digit string accepted by Python `int`: at least one decimal digit,
single underscores allowed between digits. -/
def pyDigitsGo (acc : Nat) : List Char → Option Nat
  | [] => some acc
  | c :: cs =>
    if c.isDigit then pyDigitsGo (acc * 10 + (c.toNat - 48)) cs
    else if c = '_' then
      match cs with
      | c2 :: cs2 =>
        if c2.isDigit then pyDigitsGo (acc * 10 + (c2.toNat - 48)) cs2 else none
      | [] => none
    else none

/-- Parse a nonempty digit run (with internal underscores) to its value. -/
def pyDigits : List Char → Option Nat
  | [] => none
  | c :: cs => if c.isDigit then pyDigitsGo (c.toNat - 48) cs else none

/-- Strip surrounding whitespace (Python `int` ignores it). -/
def trimChars (l : List Char) : List Char :=
  ((l.dropWhile (·.isWhitespace)).reverse.dropWhile (·.isWhitespace)).reverse

/-- Python `int(str)`: surrounding whitespace stripped, optional sign,
decimal digits. -/
def pyInt (l : List Char) : Option Int :=
  match trimChars l with
  | '+' :: rest => (pyDigits rest).map Int.ofNat
  | '-' :: rest => (pyDigits rest).map fun n => -(n : Int)
  | t => (pyDigits t).map Int.ofNat

/-- `str.split(':')`: splits on every colon, keeping empty pieces
(`"".split(':') == ['']`). -/
def splitOnColon : List Char → List (List Char)
  | [] => [[]]
  | c :: cs =>
    if c = ':' then [] :: splitOnColon cs
    else
      match splitOnColon cs with
      | [] => [[c]]
      | h :: t => (c :: h) :: t

/-- `hour, minute = map(int, alarm_time.split(':'))`: requires exactly one
colon and two Python-parsable integers. -/
def parseHHMM (s : String) : Option (Int × Int) :=
  match splitOnColon s.toList with
  | [h, m] =>
    match pyInt h, pyInt m with
    | some a, some b => some (a, b)
    | _, _ => none
  | _ => none

/-- `now.replace(hour=h, minute=m, second=0, microsecond=0)` under the
fixed-offset model: keeps the calendar day of `now`; raises (returns
`none`) when the field values are out of range. -/
def replaceHM (now : Int) (h m : Int) : Option Int :=
  if 0 ≤ h ∧ h ≤ 23 ∧ 0 ≤ m ∧ m ≤ 59 then
    some ((now / 86400) * 86400 + h * 3600 + m * 60)
  else none

/-- `TimerManager.add_alarm`: parses `HH:MM`, schedules for today or (if
that time of day is not strictly in the future) tomorrow, inserts,
re-sorts, recomputes `next_alarm`.  Returns `false` (with the state
untouched) when parsing or field validation raises. -/
def add_alarm (a : AlarmState) (now : Int) (alarm_time : String)
    (name : String) : AlarmState × Bool :=
  match parseHHMM alarm_time with
  | none => (a, false)
  | some (h, m) =>
    match replaceHM now h m with
    | none => (a, false)
    | some base =>
      let t := if base ≤ now then base + 86400 else base
      let entry : AlarmEntry := { time := t, name := name, enabled := true, timestamp := t }
      let alarms' := (a.alarms ++ [entry]).mergeSort alarmLE
      (update_next_alarm { a with alarms := alarms' } now, true)

/-- Two-digit zero padding (`f"{n:02d}"`). -/
def pad2 (n : Nat) : String := if n < 10 then "0" ++ toString n else toString n

/-- `TimerManager.format_time`: `HH:MM:SS` when at least one hour,
else `MM:SS`; negative inputs clamp to zero. -/
def format_time (seconds : Int) : String :=
  let s : Nat := (max 0 seconds).toNat
  let hours := s / 3600
  let remainder := s % 3600
  let minutes := remainder / 60
  let secs := remainder % 60
  if hours > 0 then pad2 hours ++ ":" ++ pad2 minutes ++ ":" ++ pad2 secs
  else pad2 minutes ++ ":" ++ pad2 secs

/-- `strftime('%H:%M')` of an epoch value under the fixed-offset model. -/
def fmtHM (t : Int) : String :=
  pad2 ((t / 3600) % 24).toNat ++ ":" ++ pad2 ((t / 60) % 60).toNat

/-- Python `int()` applied to an exact ratio: truncation toward zero. -/
def pyTruncDiv (a b : Int) : Int := Int.tdiv a b

/-- The waybar JSON output `{text, tooltip, class}`. -/
structure Status where
  text : String
  tooltip : String
  cssClass : String
  deriving Repr, DecidableEq

/-- `TimerManager.get_idle_status`: shows the pending alarm (minutes away
when under an hour, else its clock time) or the idle icon. -/
def get_idle_status (a : AlarmState) (now : Int) : Status :=
  match a.next_alarm with
  | some next =>
    let tu := next.time - now
    if tu < 3600 then
      let minutes := pyTruncDiv tu 60
      { text := "🔔 " ++ toString minutes ++ "m",
        tooltip := "Next alarm: " ++ next.name ++ " in " ++ toString minutes ++ " minutes",
        cssClass := "timer-alarm-pending" }
    else
      { text := "🔔 " ++ fmtHM next.time,
        tooltip := "Next alarm: " ++ next.name ++ " at " ++ fmtHM next.time,
        cssClass := "timer-alarm-pending" }
  | none =>
    { text := "⏱️",
      tooltip := "Timer Manager\n\nLeft click: Quick timer menu\nRight click: Advanced options",
      cssClass := "timer-idle" }

/-- Icon chosen by `get_timer_status`. -/
def timerIcon (s : TimerState) : String :=
  if s.paused then "⏸️"
  else if s.timer_type = "focus" then "🧠"
  else if s.timer_type = "break" then "☕"
  else "⏲️"

/-- CSS class chosen by `get_timer_status`. -/
def timerCss (s : TimerState) : String :=
  if s.paused then "timer-paused"
  else if s.timer_type = "focus" then "timer-focus"
  else if s.timer_type = "break" then "timer-break"
  else "timer-active"

/-- Truncation toward zero of a rational (Python `int(float)`). -/
def ratTrunc (q : ℚ) : ℤ := if 0 ≤ q then ⌊q⌋ else -⌊-q⌋

/-- `TimerManager.get_timer_status`: countdown text with
`remaining = max(0, duration - elapsed)` and a progress percentage. -/
def get_timer_status (s : TimerState) (now : Int) : Status :=
  let elapsed := get_current_time s now
  let remaining := max 0 (s.duration - elapsed)
  let progress : ℚ :=
    if s.duration > 0 then min 100 ((elapsed : ℚ) / (s.duration : ℚ) * 100) else 0
  let tooltip := s.timer_name ++ "\n" ++ "Remaining: " ++ format_time remaining ++ "\n"
      ++ "Progress: " ++ toString (ratTrunc progress) ++ "%"
  let tooltip :=
    if s.timer_type = "focus" ∨ s.timer_type = "break" then
      tooltip ++ "\nType: " ++ s.timer_type.capitalize ++ " Session"
    else tooltip
  { text := timerIcon s ++ " " ++ format_time remaining,
    tooltip := tooltip, cssClass := timerCss s }

/-- `TimerManager.get_stopwatch_status`. -/
def get_stopwatch_status (s : TimerState) (now : Int) : Status :=
  let elapsed := get_current_time s now
  { text := if s.paused then "⏸️ " ++ format_time elapsed else "⏱️ " ++ format_time elapsed,
    tooltip := "Stopwatch: " ++ s.timer_name ++ "\n" ++ "Elapsed: " ++ format_time elapsed,
    cssClass := if s.paused then "stopwatch-paused" else "stopwatch-active" }

/-- The whole persisted world visible to one `timer-manager.py`
invocation. -/
structure World where
  timer : TimerState
  alarms : AlarmState
  analytics : Analytics
  achievements : Option Achievements
  daily : Option DailyStats
  deriving Repr, DecidableEq

/-- Result of a `status` poll: the printed JSON (if the mode is one the
code knows), the updated world, and counters for the completion and
alarm side effects plus the points awarded during the call. -/
structure StatusResult where
  status : Option Status
  world : World
  completions : Nat
  alarmFirings : Nat
  pointsAwarded : Int
  deriving Repr, DecidableEq

/-- `TimerManager.get_status`: checks alarms on every call, then performs
lazy completion (sound + notification + `stop_timer(interrupted=False)` +
idle status) when a running countdown has expired, else renders the
mode-specific status. -/
def get_status (w : World) (now : Int) : StatusResult :=
  let ca := check_alarms w.alarms now
  let alarms' := ca.1
  let fired := ca.2
  if w.timer.mode = "timer" ∧ w.timer.paused = false ∧
      w.timer.duration ≤ get_current_time w.timer now then
    let out := stop_timer w.timer w.analytics w.achievements w.daily false now
    { status := some (get_idle_status alarms' now),
      world := { timer := out.timer, alarms := alarms', analytics := out.analytics,
                 achievements := out.achievements, daily := out.daily },
      completions := 1, alarmFirings := fired, pointsAwarded := out.awarded }
  else if w.timer.mode = "idle" then
    { status := some (get_idle_status alarms' now),
      world := { w with alarms := alarms' },
      completions := 0, alarmFirings := fired, pointsAwarded := 0 }
  else if w.timer.mode = "timer" then
    { status := some (get_timer_status w.timer now),
      world := { w with alarms := alarms' },
      completions := 0, alarmFirings := fired, pointsAwarded := 0 }
  else if w.timer.mode = "stopwatch" then
    { status := some (get_stopwatch_status w.timer now),
      world := { w with alarms := alarms' },
      completions := 0, alarmFirings := fired, pointsAwarded := 0 }
  else
    { status := none,
      world := { w with alarms := alarms' },
      completions := 0, alarmFirings := fired, pointsAwarded := 0 }

/-- The timer-state JSON file as a set of optional keys
(`load_state` merges in a default for each missing one). -/
structure StateFile where
  mode : Option String
  start_time : Option Int
  duration : Option Int
  paused : Option Bool
  pause_start : Option Int
  total_pause_time : Option Int
  timer_name : Option String
  timer_type : Option String
  session_id : Option (Option String)
  deriving Repr, DecidableEq

/-- `TimerManager.load_state`: absent/corrupt file gives the defaults;
otherwise each missing key is filled with its default. -/
def load_state : Option StateFile → TimerState
  | none => idleState
  | some f =>
    { mode := f.mode.getD "idle", start_time := f.start_time.getD 0,
      duration := f.duration.getD 0, paused := f.paused.getD false,
      pause_start := f.pause_start.getD 0,
      total_pause_time := f.total_pause_time.getD 0,
      timer_name := f.timer_name.getD "Timer",
      timer_type := f.timer_type.getD "general",
      session_id := f.session_id.getD none }

/-- `TimerManager.save_state`: the whole state is written, every key
present. -/
def save_state (s : TimerState) : StateFile :=
  { mode := some s.mode, start_time := some s.start_time,
    duration := some s.duration, paused := some s.paused,
    pause_start := some s.pause_start,
    total_pause_time := some s.total_pause_time,
    timer_name := some s.timer_name, timer_type := some s.timer_type,
    session_id := some s.session_id }

/-- The points/level/guru portion of the productivity manager's
achievements store (`productivity-manager.py`).  `guruUnlocked` is the
`available_achievements["productivity_guru"]["unlocked"]` flag and
`unlockedCount` the length of the `unlocked` list. -/
structure PAchievements where
  points : Int
  level : Int
  guruUnlocked : Bool
  unlockedCount : Nat
  deriving Repr, DecidableEq

/-- `ProductivityManager.add_points`, fuelled to bound the
`unlock_achievement("productivity_guru")` → `add_points(200)` recursion
(which terminates because the second pass sees the guru already
unlocked).  Points are always added; `level` is rewritten only when the
recomputed `points // 100 + 1` exceeds the stored level; reaching level
10 unlocks the guru achievement, which awards its own 200 points. -/
def add_points_fuel : Nat → PAchievements → Int → PAchievements
  | 0, a, _ => a
  | fuel + 1, a, p =>
    let pts := a.points + p
    let lvl := pts / 100 + 1
    if a.level < lvl then
      let a1 : PAchievements := { a with points := pts, level := lvl }
      if 10 ≤ lvl then
        if a1.guruUnlocked then a1
        else
          add_points_fuel fuel
            { a1 with guruUnlocked := true, unlockedCount := a1.unlockedCount + 1 } 200
      else a1
    else { a with points := pts }

/-- `ProductivityManager.add_points` (the recursion needs depth at most
two). -/
def add_points (a : PAchievements) (p : Int) : PAchievements :=
  add_points_fuel 2 a p

/-- Whether a call `add_points a p` triggers the level-10 guru unlock
(and hence its nested fixed 200-point award). -/
def guruFires (a : PAchievements) (p : Int) : Prop :=
  a.level < (a.points + p) / 100 + 1 ∧ 10 ≤ (a.points + p) / 100 + 1 ∧
    a.guruUnlocked = false

instance (a : PAchievements) (p : Int) : Decidable (guruFires a p) := by
  unfold guruFires; infer_instance

/-- Timer states reachable from idle by the CLI operations under a
monotone, nonnegative epoch clock.  `Reach s t` means the state `s` can
be observed at clock time `t` (the clock may advance between
operations). -/
inductive Reach : TimerState → Int → Prop where
  | init (t : Int) : 0 ≤ t → Reach idleState t
  | tick (s : TimerState) (t t' : Int) :
      Reach s t → t ≤ t' → Reach s t'
  | start (s : TimerState) (t t' : Int) (an : Analytics)
      (d : Int) (name ty fresh : String) :
      Reach s t → t ≤ t' → Reach (start_timer s an t' d name ty fresh).1 t'
  | stopwatch (s : TimerState) (t t' : Int) (name : String) :
      Reach s t → t ≤ t' → Reach (start_stopwatch s t' name) t'
  | pause (s : TimerState) (t t' : Int) :
      Reach s t → t ≤ t' → Reach (toggle_pause s t') t'
  | stop (s : TimerState) (t t' : Int) (an : Analytics)
      (ach : Option Achievements) (ds : Option DailyStats) (i : Bool) :
      Reach s t → t ≤ t' → Reach (stop_timer s an ach ds i t').timer t'
  | status (s : TimerState) (t t' : Int) (al : AlarmState)
      (an : Analytics) (ach : Option Achievements) (ds : Option DailyStats) :
      Reach s t → t ≤ t' →
      Reach (get_status ⟨s, al, an, ach, ds⟩ t').world.timer t'

/-- Strengthened clock invariant carried along `Reach`: the elapsed-time
expression is nonnegative and, while paused, the pause start is not in
the future. -/
def StateInv (s : TimerState) (t : Int) : Prop :=
  0 ≤ t ∧
    (if s.paused then
      0 ≤ s.pause_start - s.start_time - s.total_pause_time ∧ s.pause_start ≤ t
    else 0 ≤ t - s.start_time - s.total_pause_time)

/-- `j` consecutive `status` polls at a frozen clock `now`, keeping the
world produced by each poll. -/
def statusPolls (w : World) (now : Int) : Nat → World
  | 0 => w
  | n + 1 => (get_status (statusPolls w now n) now).world

/-! ## Theorems -/

/-- C2.  Pause/resume is loss-free: pausing a running, non-idle state at
clock `tp` and resuming at any later (or indeed any) clock `tr` restores
the elapsed-time reading taken at the instant of the pause, exactly in
the integer-clock model; and `toggle_pause` is a no-op on an idle
state. -/
theorem pause_resume_lossfree (s : TimerState) (tp tr : Int)
    (hmode : s.mode ≠ "idle") (hrun : s.paused = false) :
    get_current_time (toggle_pause (toggle_pause s tp) tr) tr
      = get_current_time s tp ∧
    (∀ (s2 : TimerState) (t : Int), s2.mode = "idle" → toggle_pause s2 t = s2) := by
  refine ⟨?_, ?_⟩
  · simp [toggle_pause, get_current_time, hmode, hrun]
    ring
  · intro s2 t h
    simp [toggle_pause, h]

/-- Witness for `pause_resume_lossfree` at a concrete running timer. -/
theorem pause_resume_lossfree_witness :
    get_current_time
        (toggle_pause
          (toggle_pause ⟨"timer", 10, 300, false, 0, 7, "T", "general", none⟩ 50) 400) 400
      = get_current_time ⟨"timer", 10, 300, false, 0, 7, "T", "general", none⟩ 50 ∧
    (∀ (s2 : TimerState) (t : Int), s2.mode = "idle" → toggle_pause s2 t = s2) :=
  pause_resume_lossfree ⟨"timer", 10, 300, false, 0, 7, "T", "general", none⟩ 50 400
    (by decide) rfl

/-- C6.  `start_timer` always succeeds, fully overwrites the previous
state whatever it was, sets mode `timer` with the requested duration and
reset pause accounting, and immediately afterwards the countdown's
remaining time equals the requested duration. -/
theorem start_timer_spec (s : TimerState) (an : Analytics) (now d : Int)
    (name ty fresh : String) :
    ((start_timer s an now d name ty fresh).1.mode = "timer") ∧
    ((start_timer s an now d name ty fresh).1.duration = d) ∧
    ((start_timer s an now d name ty fresh).1.paused = false) ∧
    ((start_timer s an now d name ty fresh).1.pause_start = 0) ∧
    ((start_timer s an now d name ty fresh).1.total_pause_time = 0) ∧
    (get_current_time (start_timer s an now d name ty fresh).1 now = 0) ∧
    (0 < d →
      max 0 ((start_timer s an now d name ty fresh).1.duration -
        get_current_time (start_timer s an now d name ty fresh).1 now) = d) ∧
    (∀ s2 : TimerState,
      (start_timer s2 an now d name ty fresh).1 = (start_timer s an now d name ty fresh).1) := by
  refine ⟨rfl, rfl, rfl, rfl, rfl, ?_, ?_, fun s2 => rfl⟩
  · simp [start_timer, get_current_time]
  · intro hd
    simp [start_timer, get_current_time]
    omega

/-- Witness for `start_timer_spec` with a concrete prior state and a
positive duration. -/
theorem start_timer_spec_witness :
    ((start_timer ⟨"stopwatch", 3, 0, true, 9, 2, "S", "general", none⟩ ⟨[], []⟩ 1000 1500
        "Pomodoro" "focus" "abc").1.mode = "timer") ∧
    ((start_timer ⟨"stopwatch", 3, 0, true, 9, 2, "S", "general", none⟩ ⟨[], []⟩ 1000 1500
        "Pomodoro" "focus" "abc").1.duration = 1500) ∧
    ((start_timer ⟨"stopwatch", 3, 0, true, 9, 2, "S", "general", none⟩ ⟨[], []⟩ 1000 1500
        "Pomodoro" "focus" "abc").1.paused = false) ∧
    ((start_timer ⟨"stopwatch", 3, 0, true, 9, 2, "S", "general", none⟩ ⟨[], []⟩ 1000 1500
        "Pomodoro" "focus" "abc").1.pause_start = 0) ∧
    ((start_timer ⟨"stopwatch", 3, 0, true, 9, 2, "S", "general", none⟩ ⟨[], []⟩ 1000 1500
        "Pomodoro" "focus" "abc").1.total_pause_time = 0) ∧
    (get_current_time (start_timer ⟨"stopwatch", 3, 0, true, 9, 2, "S", "general", none⟩
        ⟨[], []⟩ 1000 1500 "Pomodoro" "focus" "abc").1 1000 = 0) ∧
    (0 < (1500 : Int) →
      max 0 ((start_timer ⟨"stopwatch", 3, 0, true, 9, 2, "S", "general", none⟩ ⟨[], []⟩ 1000 1500
          "Pomodoro" "focus" "abc").1.duration -
        get_current_time (start_timer ⟨"stopwatch", 3, 0, true, 9, 2, "S", "general", none⟩
          ⟨[], []⟩ 1000 1500 "Pomodoro" "focus" "abc").1 1000) = 1500) ∧
    (∀ s2 : TimerState,
      (start_timer s2 ⟨[], []⟩ 1000 1500 "Pomodoro" "focus" "abc").1 =
        (start_timer ⟨"stopwatch", 3, 0, true, 9, 2, "S", "general", none⟩ ⟨[], []⟩ 1000 1500
          "Pomodoro" "focus" "abc").1) :=
  start_timer_spec ⟨"stopwatch", 3, 0, true, 9, 2, "S", "general", none⟩ ⟨[], []⟩ 1000 1500
    "Pomodoro" "focus" "abc"

/-- C9.  Persistence round-trips: loading a saved state reproduces it
exactly, and a load fills every missing key with its documented default
(an absent or corrupt file gives the full default state). -/
theorem persistence_roundtrip :
    (∀ s : TimerState, load_state (some (save_state s)) = s) ∧
    (∀ f : StateFile,
      (f.mode = none → (load_state (some f)).mode = "idle") ∧
      (f.start_time = none → (load_state (some f)).start_time = 0) ∧
      (f.duration = none → (load_state (some f)).duration = 0) ∧
      (f.paused = none → (load_state (some f)).paused = false) ∧
      (f.pause_start = none → (load_state (some f)).pause_start = 0) ∧
      (f.total_pause_time = none → (load_state (some f)).total_pause_time = 0) ∧
      (f.timer_name = none → (load_state (some f)).timer_name = "Timer") ∧
      (f.timer_type = none → (load_state (some f)).timer_type = "general") ∧
      (f.session_id = none → (load_state (some f)).session_id = none)) ∧
    load_state none = idleState := by
  refine ⟨fun s => by cases s; rfl, fun f => ?_, rfl⟩
  refine ⟨?_, ?_, ?_, ?_, ?_, ?_, ?_, ?_, ?_⟩ <;>
    · intro h; simp [load_state, h]

/-- Witness for `persistence_roundtrip`: a concrete state survives a
save/load cycle, and a file with all keys missing loads as the default
idle state. -/
theorem persistence_roundtrip_witness :
    load_state (some (save_state ⟨"stopwatch", 42, 0, true, 50, 3, "S", "general", some "id1"⟩)) =
      ⟨"stopwatch", 42, 0, true, 50, 3, "S", "general", some "id1"⟩ ∧
    (load_state (some ⟨none, none, none, none, none, none, none, none, none⟩)).mode = "idle" :=
  ⟨persistence_roundtrip.1 _,
   (persistence_roundtrip.2.1 ⟨none, none, none, none, none, none, none, none, none⟩).1 rfl⟩

/-- C8.  Point awards are exact and keep `level = points // 100 + 1`:
the timer-manager award path recomputes the level unconditionally, and
the productivity-manager `add_points` path preserves the invariant for
any nonnegative amount, adding exactly the event's amount — plus, when
and only when the call crosses into level ≥ 10 with the guru achievement
still locked, that achievement's own fixed 200-point award. -/
theorem points_level_spec :
    (∀ (a : Achievements) (ds : Option DailyStats) (s : TimerState) (now p : Int),
      (award_productivity_points (some a) ds s now p).1 =
        some ⟨a.points + p, (a.points + p) / 100 + 1⟩) ∧
    (∀ (a : PAchievements) (p : Int), 0 ≤ p → a.level = a.points / 100 + 1 →
      (add_points a p).level = (add_points a p).points / 100 + 1 ∧
      (guruFires a p → (add_points a p).points = a.points + p + 200 ∧
        (add_points a p).guruUnlocked = true ∧ a.guruUnlocked = false) ∧
      (¬ guruFires a p → (add_points a p).points = a.points + p ∧
        (add_points a p).guruUnlocked = a.guruUnlocked)) := by
  constructor
  · intro a ds s now p
    simp [award_productivity_points]
  · intro a p hp hinv
    have hmono : a.points / 100 ≤ (a.points + p) / 100 := by omega
    simp only [add_points, add_points_fuel, guruFires]
    split_ifs with h1 h2 h3 h4 h5 <;> simp_all <;> omega

/-- Witness for `points_level_spec`: awarding a focus completion's 10
points at 95 points crosses into level 2 on both paths. -/
theorem points_level_spec_witness :
    (award_productivity_points (some ⟨95, 1⟩) none
        ⟨"timer", 0, 60, false, 0, 0, "T", "focus", none⟩ 30 10).1 =
      some ⟨(95 : Int) + 10, ((95 : Int) + 10) / 100 + 1⟩ ∧
    (0 : Int) ≤ 10 ∧
    (add_points ⟨95, 1, false, 0⟩ 10).level = (add_points ⟨95, 1, false, 0⟩ 10).points / 100 + 1 ∧
    (¬ guruFires ⟨95, 1, false, 0⟩ 10 → (add_points ⟨95, 1, false, 0⟩ 10).points = 95 + 10) :=
  ⟨points_level_spec.1 ⟨95, 1⟩ none ⟨"timer", 0, 60, false, 0, 0, "T", "focus", none⟩ 30 10,
   by decide,
   (points_level_spec.2 ⟨95, 1, false, 0⟩ 10 (by decide) (by decide)).1,
   fun h => ((points_level_spec.2 ⟨95, 1, false, 0⟩ 10 (by decide) (by decide)).2.2 h).1⟩

/-- Sorting by the `timestamp` key yields a list that is pairwise
ordered by `timestamp`. -/
theorem pairwise_timestamp_mergeSort (l : List AlarmEntry) :
    List.Pairwise (fun x y => x.timestamp ≤ y.timestamp) (l.mergeSort alarmLE) := by
  have h := @List.sorted_mergeSort AlarmEntry alarmLE
    (fun a b c h1 h2 => by simp only [alarmLE, decide_eq_true_eq] at *; omega)
    (fun a b => by simp only [alarmLE, Bool.or_eq_true, decide_eq_true_eq]; omega) l
  exact h.imp (fun hx => by simpa [alarmLE] using hx)

/-- C3.  When at least one enabled alarm is due, `check_alarms` advances
exactly the due alarms, each by exactly 86400 seconds from its stored
trigger time (the clock `now` does not appear in the new timestamp), and
the resulting list is sorted by timestamp.  The fired count equals the
number of due alarms.  The `hsync` hypothesis states the invariant,
established at insertion, that the stored ISO time and epoch timestamp
agree. -/
theorem alarm_reschedule_plus_day (a : AlarmState) (now : Int)
    (hsync : ∀ al ∈ a.alarms, al.timestamp = al.time)
    (hfire : ∃ al ∈ a.alarms, alarmDue now al = true) :
    ((check_alarms a now).1.alarms).Perm
      (a.alarms.map (fun al =>
        if alarmDue now al then
          { al with time := al.timestamp + 86400, timestamp := al.timestamp + 86400 }
        else al)) ∧
    List.Pairwise (fun x y => x.timestamp ≤ y.timestamp) (check_alarms a now).1.alarms ∧
    (check_alarms a now).2 = (a.alarms.filter (alarmDue now)).length := by
  have hmapeq : a.alarms.map (fireAdvance now) = a.alarms.map (fun al =>
      if alarmDue now al then
        { al with time := al.timestamp + 86400, timestamp := al.timestamp + 86400 }
      else al) := by
    refine List.map_congr_left (fun al hmem => ?_)
    unfold fireAdvance
    rw [hsync al hmem]
  have hne : ¬ ((a.alarms.filter (alarmDue now)).length = 0) := by
    obtain ⟨al, hmem, hdue⟩ := hfire
    have hm : al ∈ a.alarms.filter (alarmDue now) := List.mem_filter.mpr ⟨hmem, hdue⟩
    intro h0
    rw [List.length_eq_zero] at h0
    simp [h0] at hm
  unfold check_alarms
  rw [if_neg hne]
  refine ⟨?_, ?_, rfl⟩
  · simpa [update_next_alarm, hmapeq] using
      List.mergeSort_perm (a.alarms.map (fun al =>
        if alarmDue now al then
          { al with time := al.timestamp + 86400, timestamp := al.timestamp + 86400 }
        else al)) alarmLE
  · simpa [update_next_alarm] using
      pairwise_timestamp_mergeSort (a.alarms.map (fireAdvance now))

/-- Witness for `alarm_reschedule_plus_day`: one enabled alarm due at 100
checked at clock 200 is advanced to 86500 = 100 + 86400, not 200 +
86400. -/
theorem alarm_reschedule_plus_day_witness :
    ((check_alarms ⟨[⟨100, "A", true, 100⟩], none, "Alarm"⟩ 200).1.alarms).Perm
      ([(⟨100, "A", true, 100⟩ : AlarmEntry)].map (fun al =>
        if alarmDue 200 al then
          { al with time := al.timestamp + 86400, timestamp := al.timestamp + 86400 }
        else al)) ∧
    List.Pairwise (fun x y => x.timestamp ≤ y.timestamp)
      (check_alarms ⟨[⟨100, "A", true, 100⟩], none, "Alarm"⟩ 200).1.alarms ∧
    (check_alarms ⟨[⟨100, "A", true, 100⟩], none, "Alarm"⟩ 200).2 =
      ([(⟨100, "A", true, 100⟩ : AlarmEntry)].filter (alarmDue 200)).length :=
  alarm_reschedule_plus_day ⟨[⟨100, "A", true, 100⟩], none, "Alarm"⟩ 200
    (by decide) (by decide)

/-- C7.  `add_alarm` parses `HH:MM`; on any unparsable input (including
out-of-range hour/minute values, which make `datetime.replace` raise) it
returns failure with the alarm state untouched; on success it inserts an
entry scheduled for today at that time of day, or tomorrow when that
time is not strictly in the future, and the list is sorted by timestamp
after the insertion. -/
theorem add_alarm_spec :
    (∀ (a : AlarmState) (now : Int) (s name : String),
      ((parseHHMM s).bind fun hm => replaceHM now hm.1 hm.2) = none →
      add_alarm a now s name = (a, false)) ∧
    (∀ (a : AlarmState) (now : Int) (s name : String) (h m base : Int),
      parseHHMM s = some (h, m) → replaceHM now h m = some base →
      (add_alarm a now s name).2 = true ∧
      ((add_alarm a now s name).1.alarms).Perm
        (a.alarms ++ [⟨if base ≤ now then base + 86400 else base, name, true,
                       if base ≤ now then base + 86400 else base⟩]) ∧
      List.Pairwise (fun x y => x.timestamp ≤ y.timestamp) (add_alarm a now s name).1.alarms) := by
  constructor
  · intro a now s name hfail
    rcases hp : parseHHMM s with _ | ⟨h, m⟩
    · simp [add_alarm, hp]
    · rw [hp] at hfail
      rw [Option.some_bind] at hfail
      simp [add_alarm, hp, hfail]
  · intro a now s name h m base hp hbase
    refine ⟨?_, ?_, ?_⟩
    · simp [add_alarm, hp, hbase]
    · simpa [add_alarm, hp, hbase] using
        List.mergeSort_perm (a.alarms ++ [⟨if base ≤ now then base + 86400 else base, name, true,
          if base ≤ now then base + 86400 else base⟩]) alarmLE
    · simp only [add_alarm, hp, hbase, update_next_alarm]
      exact pairwise_timestamp_mergeSort _

/-- Witness for `add_alarm_spec`: adding "09:00" at 09:30 (clock 34200)
schedules tomorrow 09:00 (118800 = 32400 + 86400); the garbage input
"9am" fails and leaves the single-alarm state untouched. -/
theorem add_alarm_spec_witness :
    (add_alarm ⟨[⟨40000, "B", true, 40000⟩], none, "Alarm"⟩ 34200 "9am" "X" =
      (⟨[⟨40000, "B", true, 40000⟩], none, "Alarm"⟩, false)) ∧
    ((add_alarm ⟨[], none, "Alarm"⟩ 34200 "09:00" "Standup").2 = true ∧
      ((add_alarm ⟨[], none, "Alarm"⟩ 34200 "09:00" "Standup").1.alarms).Perm
        ([] ++ [⟨if (32400 : Int) ≤ 34200 then 32400 + 86400 else 32400, "Standup", true,
                 if (32400 : Int) ≤ 34200 then 32400 + 86400 else 32400⟩]) ∧
      List.Pairwise (fun x y => x.timestamp ≤ y.timestamp)
        (add_alarm ⟨[], none, "Alarm"⟩ 34200 "09:00" "Standup").1.alarms) :=
  ⟨add_alarm_spec.1 ⟨[⟨40000, "B", true, 40000⟩], none, "Alarm"⟩ 34200 "9am" "X" (by decide),
   add_alarm_spec.2 ⟨[], none, "Alarm"⟩ 34200 "09:00" "Standup" 9 0 32400
     (by decide) (by decide)⟩

/-- A session list with no record matching the id is returned unchanged
by the `update_session_record` inner loop, with no award. -/
theorem updateSessionList_no_match (sid : String) (c i : Bool) (now : Int) (act : Option ℚ)
    (l : List SessionRecord) (h : ∀ x ∈ l, x.id ≠ sid) :
    updateSessionList sid c i now act l = (l, false) := by
  induction l with
  | nil => rfl
  | cons r rs ih =>
    have hr : r.id ≠ sid := h r (List.mem_cons_self r rs)
    simp only [updateSessionList, if_neg hr, List.append_eq]
    rw [ih (fun x hx => h x (List.mem_cons_of_mem r hx))]

/-- The `update_session_record` inner loop updates exactly the first
matching record; the award flag fires when that record is a completed,
uninterrupted focus session. -/
theorem updateSessionList_first_match (sid : String) (c i : Bool) (now : Int) (act : Option ℚ)
    (pre : List SessionRecord) (r : SessionRecord) (post : List SessionRecord)
    (hpre : ∀ x ∈ pre, x.id ≠ sid) (hr : r.id = sid) :
    updateSessionList sid c i now act (pre ++ r :: post) =
      (pre ++ ({ r with completed := c, interrupted := i, end_time := some now,
                        actual_duration := act.getD r.actual_duration } : SessionRecord) :: post,
       r.stype = "focus" && c && !i) := by
  induction pre with
  | nil => simp [updateSessionList, hr]
  | cons x xs ih =>
    have hx : x.id ≠ sid := hpre x (List.mem_cons_self x xs)
    simp only [List.cons_append, updateSessionList, if_neg hx, List.append_eq]
    rw [ih (fun y hy => hpre y (List.mem_cons_of_mem x hy))]

/-- C5, counterexample to the claim as stated: stopping a focus timer
with elapsed 100 s stores `actual_duration = round(100/60, 1) = 1.7`
minutes, not `100/60 = 5/3` minutes — the code rounds to one decimal
place, which the claim omits. -/
theorem stop_actual_duration_cex :
    ((stop_timer ⟨"timer", 0, 6000, false, 0, 0, "F", "focus", some "s1"⟩
        ⟨[⟨"s1", "F", "focus", 100, 0, false, false, 0, none⟩], []⟩
        none none true 100).analytics.focus_sessions.map
      (fun r => r.actual_duration)) ≠
      [((get_current_time ⟨"timer", 0, 6000, false, 0, 0, "F", "focus", some "s1"⟩ 100 : ℚ) / 60)] := by
  simp [stop_timer, update_session_record, pyTruthy, get_current_time, updateSessionList,
    pyRound1, roundHalfEven]
  norm_num [Int.fract]

/-- C5, amended.  `stop_timer` is a no-op on an idle state; on any
non-idle state it resets to the idle defaults whatever the `interrupted`
flag is, and when a session record is open (truthy `session_id` with
focus/break type) the matching record — in whichever of the two session
lists it lives — is marked `completed = ¬interrupted`,
`interrupted = interrupted`, gets `end_time` stamped, and gets
`actual_duration = round(elapsed/60, 1)` (elapsed minutes rounded to one
decimal place). -/
theorem stop_timer_spec (s : TimerState) (an : Analytics) (ach : Option Achievements)
    (ds : Option DailyStats) (i : Bool) (now : Int) :
    (s.mode = "idle" → stop_timer s an ach ds i now = ⟨s, an, ach, ds, 0⟩) ∧
    (s.mode ≠ "idle" → (stop_timer s an ach ds i now).timer = idleState) ∧
    (∀ (sid : String) (pre post : List SessionRecord) (r : SessionRecord),
      s.mode ≠ "idle" → s.session_id = some sid → sid ≠ "" →
      (s.timer_type = "focus" ∨ s.timer_type = "break") →
      an.focus_sessions = pre ++ r :: post →
      (∀ x ∈ pre, x.id ≠ sid) → r.id = sid →
      (∀ x ∈ an.break_sessions, x.id ≠ sid) →
      (stop_timer s an ach ds i now).analytics =
        ⟨pre ++ ({ r with completed := !i, interrupted := i, end_time := some now,
                          actual_duration :=
                            pyRound1 ((get_current_time s now : ℚ) / 60) } : SessionRecord) :: post,
         an.break_sessions⟩) ∧
    (∀ (sid : String) (pre post : List SessionRecord) (r : SessionRecord),
      s.mode ≠ "idle" → s.session_id = some sid → sid ≠ "" →
      (s.timer_type = "focus" ∨ s.timer_type = "break") →
      an.break_sessions = pre ++ r :: post →
      (∀ x ∈ pre, x.id ≠ sid) → r.id = sid →
      (∀ x ∈ an.focus_sessions, x.id ≠ sid) →
      (stop_timer s an ach ds i now).analytics =
        ⟨an.focus_sessions,
         pre ++ ({ r with completed := !i, interrupted := i, end_time := some now,
                          actual_duration :=
                            pyRound1 ((get_current_time s now : ℚ) / 60) } : SessionRecord) :: post⟩) := by
  refine ⟨?_, ?_, ?_, ?_⟩
  · intro h
    simp [stop_timer, h]
  · intro h
    simp only [stop_timer, if_pos h]
  · intro sid pre post r hmode hsid hne hty hfs hpre hr hbs
    have htruthy : pyTruthy s.session_id = true := by
      rw [hsid]; simp [pyTruthy, hne]
    simp only [stop_timer, if_pos hmode]
    rw [if_pos (show (pyTruthy s.session_id = true) ∧ _ from ⟨htruthy, hty⟩)]
    simp only [update_session_record, htruthy, if_true, hsid, Option.getD_some, if_pos hty, hfs]
    rw [updateSessionList_first_match sid (!i) i now _ pre r post hpre hr,
        updateSessionList_no_match sid (!i) i now _ an.break_sessions hbs]
    simp [pyTruthy, hne]
  · intro sid pre post r hmode hsid hne hty hbs hpre hr hfs
    have htruthy : pyTruthy s.session_id = true := by
      rw [hsid]; simp [pyTruthy, hne]
    simp only [stop_timer, if_pos hmode]
    rw [if_pos (show (pyTruthy s.session_id = true) ∧ _ from ⟨htruthy, hty⟩)]
    simp only [update_session_record, htruthy, if_true, hsid, Option.getD_some, if_pos hty, hbs]
    rw [updateSessionList_first_match sid (!i) i now _ pre r post hpre hr,
        updateSessionList_no_match sid (!i) i now _ an.focus_sessions hfs]
    simp [pyTruthy, hne]

/-- Witness for `stop_timer_spec`: an idle stop is a no-op, and stopping
a concrete focus timer marks its open record interrupted with
`actual_duration` the rounded elapsed minutes. -/
theorem stop_timer_spec_witness :
    (stop_timer ⟨"idle", 0, 0, false, 0, 0, "Timer", "general", none⟩ ⟨[], []⟩ none none true 5 =
      ⟨⟨"idle", 0, 0, false, 0, 0, "Timer", "general", none⟩, ⟨[], []⟩, none, none, 0⟩) ∧
    ((stop_timer ⟨"timer", 0, 6000, false, 0, 0, "F", "focus", some "s1"⟩
        ⟨[⟨"s1", "F", "focus", 100, 0, false, false, 0, none⟩], []⟩ none none true 100).analytics =
      ⟨[] ++ ({ (⟨"s1", "F", "focus", 100, 0, false, false, 0, none⟩ : SessionRecord) with
                completed := !true, interrupted := true, end_time := some 100,
                actual_duration :=
                  pyRound1 ((get_current_time
                    ⟨"timer", 0, 6000, false, 0, 0, "F", "focus", some "s1"⟩ 100 : ℚ) / 60) }
                : SessionRecord) :: [],
       []⟩) :=
  ⟨(stop_timer_spec ⟨"idle", 0, 0, false, 0, 0, "Timer", "general", none⟩
      ⟨[], []⟩ none none true 5).1 rfl,
   (stop_timer_spec ⟨"timer", 0, 6000, false, 0, 0, "F", "focus", some "s1"⟩
      ⟨[⟨"s1", "F", "focus", 100, 0, false, false, 0, none⟩], []⟩ none none true 100).2.2.1
     "s1" [] [] ⟨"s1", "F", "focus", 100, 0, false, false, 0, none⟩
     (by decide) rfl (by decide) (Or.inl rfl) rfl (by simp) rfl (by simp)⟩

/-- A `status` poll on a world whose timer is idle only refreshes the
alarm state: no completion, no points, timer untouched, idle status
rendered from the refreshed alarms. -/
theorem get_status_of_idle (w : World) (t : Int) (h : w.timer.mode = "idle") :
    get_status w t = { status := some (get_idle_status (check_alarms w.alarms t).1 t),
                       world := { w with alarms := (check_alarms w.alarms t).1 },
                       completions := 0, alarmFirings := (check_alarms w.alarms t).2,
                       pointsAwarded := 0 } := by
  simp [get_status, h]

/-- C1.  Completion is idempotent: for a running countdown whose elapsed
time has reached the duration, the first `status` poll fires the
completion side effects exactly once (completion counter 1, the
`stop_timer(interrupted=False)` session/points pipeline applied) and
resets the timer to idle; every later poll on an idle-mode world fires
no completion, awards no points, leaves the timer untouched and renders
the idle status — however late the first poll is. -/
theorem completion_idempotent (w : World) (now : Int)
    (hm : w.timer.mode = "timer") (hp : w.timer.paused = false)
    (he : w.timer.duration ≤ get_current_time w.timer now) :
    (get_status w now).completions = 1 ∧
    (get_status w now).world.timer = idleState ∧
    (get_status w now).status =
      some (get_idle_status (get_status w now).world.alarms now) ∧
    (get_status w now).world.analytics =
      (stop_timer w.timer w.analytics w.achievements w.daily false now).analytics ∧
    (get_status w now).world.achievements =
      (stop_timer w.timer w.analytics w.achievements w.daily false now).achievements ∧
    (get_status w now).pointsAwarded =
      (stop_timer w.timer w.analytics w.achievements w.daily false now).awarded ∧
    (∀ (w2 : World) (t2 : Int), w2.timer.mode = "idle" →
      (get_status w2 t2).completions = 0 ∧
      (get_status w2 t2).pointsAwarded = 0 ∧
      (get_status w2 t2).world.timer = w2.timer ∧
      (get_status w2 t2).status =
        some (get_idle_status ((get_status w2 t2).world.alarms) t2)) := by
  have hcond : w.timer.mode = "timer" ∧ w.timer.paused = false ∧
      w.timer.duration ≤ get_current_time w.timer now := ⟨hm, hp, he⟩
  have hstop : (stop_timer w.timer w.analytics w.achievements w.daily false now).timer
      = idleState := by
    have hne : w.timer.mode ≠ "idle" := by rw [hm]; decide
    simp only [stop_timer, if_pos hne]
  refine ⟨?_, ?_, ?_, ?_, ?_, ?_, ?_⟩
  · simp only [get_status]; rw [if_pos hcond]
  · simp only [get_status]; rw [if_pos hcond]; exact hstop
  · simp only [get_status]; rw [if_pos hcond]
  · simp only [get_status]; rw [if_pos hcond]
  · simp only [get_status]; rw [if_pos hcond]
  · simp only [get_status]; rw [if_pos hcond]
  · intro w2 t2 h2
    rw [get_status_of_idle w2 t2 h2]
    exact ⟨rfl, rfl, rfl, rfl⟩

/-- Witness for `completion_idempotent`: a countdown of 5 s polled at
clock 10 completes once and leaves the idle state. -/
theorem completion_idempotent_witness :
    (get_status ⟨⟨"timer", 0, 5, false, 0, 0, "T", "general", none⟩,
        ⟨[], none, "Alarm"⟩, ⟨[], []⟩, none, none⟩ 10).completions = 1 ∧
    (get_status ⟨⟨"timer", 0, 5, false, 0, 0, "T", "general", none⟩,
        ⟨[], none, "Alarm"⟩, ⟨[], []⟩, none, none⟩ 10).world.timer = idleState :=
  ⟨(completion_idempotent ⟨⟨"timer", 0, 5, false, 0, 0, "T", "general", none⟩,
      ⟨[], none, "Alarm"⟩, ⟨[], []⟩, none, none⟩ 10 rfl rfl (by decide)).1,
   (completion_idempotent ⟨⟨"timer", 0, 5, false, 0, 0, "T", "general", none⟩,
      ⟨[], none, "Alarm"⟩, ⟨[], []⟩, none, none⟩ 10 rfl rfl (by decide)).2.1⟩

/-- The state invariant is stable under letting the clock advance. -/
theorem stateInv_mono {s : TimerState} {t t2 : Int} (h : StateInv s t) (hle : t ≤ t2) :
    StateInv s t2 := by
  rcases h with ⟨h0, hrest⟩
  refine ⟨by omega, ?_⟩
  split_ifs at hrest ⊢ with hp
  · exact ⟨hrest.1, by omega⟩
  · omega

/-- The idle default state satisfies the invariant at any nonnegative
clock. -/
theorem stateInv_idle {t : Int} (h : 0 ≤ t) : StateInv idleState t := by
  refine ⟨h, ?_⟩
  simp [idleState]
  omega

/-- A `status` poll either leaves the timer state alone or (on lazy
completion) resets it to the idle defaults. -/
theorem get_status_timer_cases (w : World) (t : Int) :
    (get_status w t).world.timer = w.timer ∨ (get_status w t).world.timer = idleState := by
  by_cases hc : (w.timer.mode = "timer" ∧ w.timer.paused = false ∧
      w.timer.duration ≤ get_current_time w.timer t)
  · right
    simp only [get_status]
    rw [if_pos hc]
    have hne : w.timer.mode ≠ "idle" := by rw [hc.1]; decide
    simp only [stop_timer, if_pos hne]
  · left
    simp only [get_status]
    rw [if_neg hc]
    split_ifs <;> rfl

/-- Every reachable state satisfies the clock invariant. -/
theorem reach_stateInv {s : TimerState} {t : Int} (h : Reach s t) : StateInv s t := by
  induction h with
  | init t ht => exact stateInv_idle ht
  | tick s t t2 hr hle ih => exact stateInv_mono ih hle
  | start s t t2 an d name ty fresh hr hle ih =>
    have h0 : 0 ≤ t2 := le_trans ih.1 hle
    refine ⟨h0, ?_⟩
    simp [start_timer]
  | stopwatch s t t2 name hr hle ih =>
    have h0 : 0 ≤ t2 := le_trans ih.1 hle
    refine ⟨h0, ?_⟩
    simp [start_stopwatch]
  | pause s t t2 hr hle ih =>
    rcases stateInv_mono ih hle with ⟨h0, hrest⟩
    unfold toggle_pause
    split_ifs with hidle hp
    · exact ⟨h0, hrest⟩
    · rw [if_pos hp] at hrest
      refine ⟨h0, ?_⟩
      simp
      omega
    · rw [if_neg hp] at hrest
      refine ⟨h0, ?_⟩
      simp
      omega
  | stop s t t2 an ach ds i hr hle ih =>
    have ih2 := stateInv_mono ih hle
    by_cases hmode : s.mode ≠ "idle"
    · have he : (stop_timer s an ach ds i t2).timer = idleState := by
        simp only [stop_timer, if_pos hmode]
      rw [he]
      exact stateInv_idle ih2.1
    · have he : (stop_timer s an ach ds i t2).timer = s := by
        simp only [stop_timer, if_neg hmode]
      rw [he]
      exact ih2
  | status s t t2 al an ach ds hr hle ih =>
    have ih2 := stateInv_mono ih hle
    rcases get_status_timer_cases ⟨s, al, an, ach, ds⟩ t2 with hcase | hcase
    · rw [hcase]
      exact ih2
    · rw [hcase]
      exact stateInv_idle ih2.1

/-- C4.  In every state reachable from idle under a monotone nonnegative
clock, the computed elapsed time (pause-aware, per `get_current_time`)
is nonnegative, and the countdown status always displays
`remaining = max(0, duration - elapsed)`. -/
theorem reach_elapsed_nonneg (s : TimerState) (t : Int) (h : Reach s t) :
    0 ≤ get_current_time s t ∧
    (get_timer_status s t).text =
      timerIcon s ++ " " ++ format_time (max 0 (s.duration - get_current_time s t)) := by
  rcases reach_stateInv h with ⟨h0, hrest⟩
  refine ⟨?_, rfl⟩
  unfold get_current_time
  split_ifs at hrest ⊢ with hp
  · omega
  · omega

/-- Witness for `reach_elapsed_nonneg`: a timer started at clock 3 and
observed at clock 5 is a concrete reachable state. -/
theorem reach_elapsed_nonneg_witness :
    0 ≤ get_current_time (start_timer idleState ⟨[], []⟩ 3 60 "T" "general" "x").1 5 ∧
    (get_timer_status (start_timer idleState ⟨[], []⟩ 3 60 "T" "general" "x").1 5).text =
      timerIcon (start_timer idleState ⟨[], []⟩ 3 60 "T" "general" "x").1 ++ " " ++
        format_time (max 0 ((start_timer idleState ⟨[], []⟩ 3 60 "T" "general" "x").1.duration -
          get_current_time (start_timer idleState ⟨[], []⟩ 3 60 "T" "general" "x").1 5)) :=
  reach_elapsed_nonneg _ 5
    (Reach.tick _ 3 5
      (Reach.start idleState 0 3 ⟨[], []⟩ 60 "T" "general" "x"
        (Reach.init 0 (by decide)) (by decide))
      (by decide))

/-- `check_alarms` on a single enabled due alarm: fires once, advances
the entry by one day, recomputes `next_alarm` from the advanced
entry. -/
theorem check_alarms_single_due (T now : Int) (nm an : String) (x : Option AlarmEntry)
    (h : T ≤ now) :
    check_alarms ⟨[⟨T, nm, true, T⟩], x, an⟩ now =
      (⟨[⟨T + 86400, nm, true, T + 86400⟩],
        if now < T + 86400 then some ⟨T + 86400, nm, true, T + 86400⟩ else none, an⟩, 1) := by
  simp [check_alarms, alarmDue, fireAdvance, h, update_next_alarm, List.mergeSort_singleton]

/-- `check_alarms` on a single enabled future alarm: nothing fires and
the state is untouched. -/
theorem check_alarms_single_notdue (T now : Int) (nm an : String) (x : Option AlarmEntry)
    (h : ¬ (T ≤ now)) :
    check_alarms ⟨[⟨T, nm, true, T⟩], x, an⟩ now = (⟨[⟨T, nm, true, T⟩], x, an⟩, 0) := by
  simp [check_alarms, alarmDue, h]

/-- Closed form of `j` consecutive status polls over an idle world with
one enabled alarm at `T`, while each poll still finds the alarm due:
each poll advances it by exactly one day. -/
theorem statusPolls_closed (T now : Int) (nm : String) (k : Nat)
    (hk : ∀ i : Nat, i < k → T + (i : Int) * 86400 ≤ now) :
    ∀ j : Nat, j ≤ k →
      statusPolls ⟨idleState, ⟨[⟨T, nm, true, T⟩], none, "Alarm"⟩, ⟨[], []⟩, none, none⟩ now j =
        ⟨idleState,
         ⟨[⟨T + (j : Int) * 86400, nm, true, T + (j : Int) * 86400⟩],
          if j = 0 then none
          else if now < T + (j : Int) * 86400 then
            some ⟨T + (j : Int) * 86400, nm, true, T + (j : Int) * 86400⟩
          else none,
          "Alarm"⟩, ⟨[], []⟩, none, none⟩ := by
  intro j
  induction j with
  | zero => intro _; simp [statusPolls]
  | succ n ihn =>
    intro hle
    have hn : n ≤ k := Nat.le_of_succ_le hle
    have hdue : T + (n : Int) * 86400 ≤ now := hk n (Nat.lt_of_succ_le hle)
    rw [statusPolls, ihn hn]
    rw [get_status_of_idle _ now rfl]
    rw [check_alarms_single_due _ now nm "Alarm" _ hdue]
    have harith : T + (n : Int) * 86400 + 86400 = T + ((n + 1 : Nat) : Int) * 86400 := by
      push_cast
      ring
    simp only [harith]
    simp

/-- C10.  Missed alarm firings are not collapsed: an enabled alarm whose
trigger time lies `k` day-intervals in the past (with `now` in the k-th
interval past `T`) fires on each of `k` consecutive status polls, each
poll advancing it by exactly one day — so after each of the first `k-1`
polls its timestamp is still ≤ `now` and it fires again on the next
poll — and only the (k+1)-th poll finds it in the future and fires
nothing, the entry finally resting at `T + k` days. -/
theorem alarm_catchup_polls (T now : Int) (nm : String) (k : Nat) (_hk1 : 1 ≤ k)
    (h1 : T + ((k : Int) - 1) * 86400 ≤ now) (h2 : now < T + (k : Int) * 86400) :
    (∀ j : Nat, j < k →
      (get_status (statusPolls ⟨idleState, ⟨[⟨T, nm, true, T⟩], none, "Alarm"⟩,
        ⟨[], []⟩, none, none⟩ now j) now).alarmFirings = 1) ∧
    (get_status (statusPolls ⟨idleState, ⟨[⟨T, nm, true, T⟩], none, "Alarm"⟩,
        ⟨[], []⟩, none, none⟩ now k) now).alarmFirings = 0 ∧
    (statusPolls ⟨idleState, ⟨[⟨T, nm, true, T⟩], none, "Alarm"⟩,
        ⟨[], []⟩, none, none⟩ now k).alarms.alarms =
      [⟨T + (k : Int) * 86400, nm, true, T + (k : Int) * 86400⟩] := by
  have hk : ∀ i : Nat, i < k → T + (i : Int) * 86400 ≤ now := by
    intro i hi
    have hcast : (i : Int) ≤ (k : Int) - 1 := by omega
    nlinarith [h1]
  refine ⟨?_, ?_, ?_⟩
  · intro j hj
    rw [statusPolls_closed T now nm k hk j (Nat.le_of_lt hj)]
    rw [get_status_of_idle _ now rfl]
    rw [check_alarms_single_due _ now nm "Alarm" _ (hk j hj)]
  · rw [statusPolls_closed T now nm k hk k le_rfl]
    rw [get_status_of_idle _ now rfl]
    rw [check_alarms_single_notdue _ now nm "Alarm" _ (by omega)]
  · rw [statusPolls_closed T now nm k hk k le_rfl]

/-- Witness for `alarm_catchup_polls`: an alarm set for epoch 0, polled
at clock 100000 (in the second day-interval), fires on polls 1 and 2 and
not on poll 3. -/
theorem alarm_catchup_polls_witness :
    (∀ j : Nat, j < 2 →
      (get_status (statusPolls ⟨idleState, ⟨[⟨0, "A", true, 0⟩], none, "Alarm"⟩,
        ⟨[], []⟩, none, none⟩ 100000 j) 100000).alarmFirings = 1) ∧
    (get_status (statusPolls ⟨idleState, ⟨[⟨0, "A", true, 0⟩], none, "Alarm"⟩,
        ⟨[], []⟩, none, none⟩ 100000 2) 100000).alarmFirings = 0 ∧
    (statusPolls ⟨idleState, ⟨[⟨0, "A", true, 0⟩], none, "Alarm"⟩,
        ⟨[], []⟩, none, none⟩ 100000 2).alarms.alarms =
      [⟨0 + ((2 : Nat) : Int) * 86400, "A", true, 0 + ((2 : Nat) : Int) * 86400⟩] :=
  alarm_catchup_polls 0 100000 "A" 2 (by decide) (by decide) (by decide)

end Waybar
